import Mathlib

/-!
Shallow embedding of the flashcard application's service layer
(`src/lib/services/deck-service.ts`, `src/lib/services/card-service.ts`),
its server-action handlers (deck and card actions with their zod schemas),
and the study-session state machine (`src/components/study-interface.tsx`),
together with proofs of the specification's claims about them.

The relational store is modelled as explicit lists of rows; SQL
`select ... where p` becomes `List.filter`, `orderBy` an insertion sort,
`innerJoin` a list product restricted to the join condition, and
`result[0] || null` becomes `List.head?`.  A thrown exception is an
`Except.error` carrying the thrown message.  Timestamps are `Nat`.
-/

/-- A row of `decksTable`: id, userId (owner), name, optional description,
createdAt, updatedAt. -/
structure Deck where
  id : Nat
  userId : String
  name : String
  description : Option String
  createdAt : Nat
  updatedAt : Nat
deriving DecidableEq, Repr

/-- A row of `cardsTable`: id, deckId (parent deck), front, back,
createdAt, updatedAt.  There is no per-card owner column. -/
structure Card where
  id : Nat
  deckId : Nat
  front : String
  back : String
  createdAt : Nat
  updatedAt : Nat
deriving DecidableEq, Repr

/-- The persistent store: the two tables plus the identity generators
backing `generatedAlwaysAsIdentity` primary keys. -/
structure DB where
  decks : List Deck
  cards : List Card
  nextDeckId : Nat
  nextCardId : Nat
deriving DecidableEq, Repr

/-- Database well-formedness: primary keys are unique in each table
(the store enforces this; it is the primary-key constraint). -/
def WF (db : DB) : Prop :=
  (db.decks.map Deck.id).Nodup ∧ (db.cards.map Card.id).Nodup

instance (db : DB) : Decidable (WF db) := by
  unfold WF; infer_instance

/-- Stable insertion into a list sorted ascending by `key`. -/
def insertAscBy (key : α → Nat) (x : α) : List α → List α
  | [] => [x]
  | y :: ys => if key x < key y then x :: y :: ys else y :: insertAscBy key x ys

/-- `ORDER BY key ASC` (e.g. `orderBy(asc(cardsTable.createdAt))`). -/
def orderByAsc (key : α → Nat) : List α → List α
  | [] => []
  | x :: xs => insertAscBy key x (orderByAsc key xs)

/-- Stable insertion into a list sorted descending by `key`. -/
def insertDescBy (key : α → Nat) (x : α) : List α → List α
  | [] => [x]
  | y :: ys => if key y < key x then x :: y :: ys else y :: insertDescBy key x ys

/-- `ORDER BY key DESC` (e.g. `orderBy(desc(decksTable.updatedAt))`). -/
def orderByDesc (key : α → Nat) : List α → List α
  | [] => []
  | x :: xs => insertDescBy key x (orderByDesc key xs)

/-- Partial-update payload for a deck (`{ name?: string; description?: string }`);
`none` means the field is absent from the payload. -/
structure DeckUpdate where
  name : Option String
  description : Option String
deriving DecidableEq, Repr

/-- `{...data, updatedAt: new Date()}` applied to a deck row: present fields
overwrite, `updatedAt` is refreshed, id and userId are untouched. -/
def applyDeckUpdate (d : Deck) (data : DeckUpdate) (now : Nat) : Deck :=
  { d with
    name := data.name.getD d.name
    description := match data.description with
      | none => d.description
      | some s => some s
    updatedAt := now }

/-- Partial-update payload for a card (`{ front?: string; back?: string }`). -/
structure CardUpdate where
  front : Option String
  back : Option String
deriving DecidableEq, Repr

/-- `{...data, updatedAt: new Date()}` applied to a card row. -/
def applyCardUpdate (c : Card) (data : CardUpdate) (now : Nat) : Card :=
  { c with
    front := data.front.getD c.front
    back := data.back.getD c.back
    updatedAt := now }

/-- `DeckService.getUserDecks`: select decks where userId matches, ordered by
updatedAt descending. -/
def DeckService.getUserDecks (userId : String) (db : DB) : List Deck :=
  orderByDesc Deck.updatedAt (db.decks.filter (fun d => d.userId == userId))

/-- `DeckService.getUserDeck`: select where `id = deckId AND userId = userId`,
then `deck[0] || null`. -/
def DeckService.getUserDeck (userId : String) (deckId : Nat) (db : DB) :
    Option Deck :=
  (db.decks.filter (fun d => d.id == deckId && d.userId == userId)).head?

/-- `DeckService.createDeck`: insert with server-stamped `userId` and fresh id;
`.returning()` gives the new row. -/
def DeckService.createDeck (userId : String) (name : String)
    (description : Option String) (now : Nat) (db : DB) : Deck × DB :=
  let deck : Deck :=
    { id := db.nextDeckId, userId := userId, name := name,
      description := description, createdAt := now, updatedAt := now }
  (deck, { db with decks := db.decks ++ [deck], nextDeckId := db.nextDeckId + 1 })

/-- `DeckService.updateDeck`: a single `UPDATE ... WHERE id = deckId AND
userId = userId` — the ownership predicate is part of the write's matching
condition, then `result[0] || null` from `.returning()`. -/
def DeckService.updateDeck (userId : String) (deckId : Nat) (data : DeckUpdate)
    (now : Nat) (db : DB) : Option Deck × DB :=
  let touched := db.decks.filter (fun d => d.id == deckId && d.userId == userId)
  let decks' := db.decks.map (fun d =>
    if d.id == deckId && d.userId == userId then applyDeckUpdate d data now else d)
  ((touched.map (fun d => applyDeckUpdate d data now)).head?,
   { db with decks := decks' })

/-- `DeckService.deleteDeck`: `DELETE ... WHERE id = deckId AND userId = userId`,
returning the deleted row or null.

The schema module `@/db/schema` is not among the sources; per the spec,
the storage layer cascades the deletion to child cards.  Modelled from the
spec: "deletion of a Deck cascades to delete all child Cards (enforced at
the storage layer)" — every card whose `deckId` references a deleted deck
row is removed in the same operation. -/
def DeckService.deleteDeck (userId : String) (deckId : Nat) (db : DB) :
    Option Deck × DB :=
  let deleted := db.decks.filter (fun d => d.id == deckId && d.userId == userId)
  (deleted.head?,
   { db with
     decks := db.decks.filter (fun d => !(d.id == deckId && d.userId == userId)),
     cards := db.cards.filter (fun c => !(deleted.any (fun d => c.deckId == d.id))) })

/-- `DeckService.getDeckCards`: first `getUserDeck`; if absent it THROWS
`'Deck not found or access denied'`; otherwise selects the deck's cards
ordered by `createdAt` (ascending). -/
def DeckService.getDeckCards (userId : String) (deckId : Nat) (db : DB) :
    Except String (List Card) :=
  match DeckService.getUserDeck userId deckId db with
  | none => .error "Deck not found or access denied"
  | some _ =>
      .ok (orderByAsc Card.createdAt (db.cards.filter (fun c => c.deckId == deckId)))

/-- The `cards INNER JOIN decks ON cards.deckId = decks.id` row set. -/
def joinCardsDecks (db : DB) : List (Card × Deck) :=
  db.cards.flatMap (fun c =>
    (db.decks.filter (fun d => c.deckId == d.id)).map (fun d => (c, d)))

/-- `CardService.getDeckCards`: verify the caller owns the deck; if not,
return `[]` (the source comments: "Return empty array instead of throwing
error"); otherwise the deck's cards ordered by `createdAt` DESCENDING. -/
def CardService.getDeckCards (userId : String) (deckId : Nat) (db : DB) :
    List Card :=
  let deck := db.decks.filter (fun d => d.id == deckId && d.userId == userId)
  if deck.isEmpty then []
  else orderByDesc Card.createdAt (db.cards.filter (fun c => c.deckId == deckId))

/-- `CardService.getCard`: join through the parent deck, `WHERE cards.id =
cardId AND decks.userId = userId`, then `result[0] || null`. -/
def CardService.getCard (userId : String) (cardId : Nat) (db : DB) :
    Option Card :=
  (((joinCardsDecks db).filter
      (fun cd => cd.1.id == cardId && cd.2.userId == userId)).head?).map Prod.fst

/-- `CardService.createCard`: verify deck ownership, THROW
`'Deck not found or access denied'` if absent/not owned, else insert. -/
def CardService.createCard (userId : String) (deckId : Nat)
    (front back : String) (now : Nat) (db : DB) : Except String (Card × DB) :=
  let deck := db.decks.filter (fun d => d.id == deckId && d.userId == userId)
  if deck.isEmpty then .error "Deck not found or access denied"
  else
    let card : Card :=
      { id := db.nextCardId, deckId := deckId, front := front, back := back,
        createdAt := now, updatedAt := now }
    .ok (card, { db with cards := db.cards ++ [card], nextCardId := db.nextCardId + 1 })

/-- `CardService.updateCard`: look the card up through the join (on card id
only), THROW `'Card not found or access denied'` when the row is missing or
its deck's owner differs, else `UPDATE ... WHERE id = cardId`. -/
def CardService.updateCard (userId : String) (cardId : Nat) (data : CardUpdate)
    (now : Nat) (db : DB) : Except String (Option Card × DB) :=
  let cardWithDeck := (joinCardsDecks db).filter (fun cd => cd.1.id == cardId)
  match cardWithDeck.head? with
  | none => .error "Card not found or access denied"
  | some cd =>
      if cd.2.userId == userId then
        let touched := db.cards.filter (fun c => c.id == cardId)
        let cards' := db.cards.map (fun c =>
          if c.id == cardId then applyCardUpdate c data now else c)
        .ok ((touched.map (fun c => applyCardUpdate c data now)).head?,
             { db with cards := cards' })
      else .error "Card not found or access denied"

/-- `CardService.deleteCard`: same ownership resolution as `updateCard`,
then `DELETE ... WHERE id = cardId`. -/
def CardService.deleteCard (userId : String) (cardId : Nat) (db : DB) :
    Except String (Option Card × DB) :=
  let cardWithDeck := (joinCardsDecks db).filter (fun cd => cd.1.id == cardId)
  match cardWithDeck.head? with
  | none => .error "Card not found or access denied"
  | some cd =>
      if cd.2.userId == userId then
        let deleted := db.cards.filter (fun c => c.id == cardId)
        .ok (deleted.head?,
             { db with cards := db.cards.filter (fun c => !(c.id == cardId)) })
      else .error "Card not found or access denied"

/-! ### Server-action handlers and their zod schemas -/

/-- Input shape of `createDeckAction`: `{name, description?}`. -/
structure CreateDeckInput where
  name : String
  description : Option String
deriving DecidableEq, Repr

/-- `createDeckSchema`: `name: z.string().min(1).max(255)`,
`description: z.string().optional()` (no bound on description). -/
def createDeckSchema (i : CreateDeckInput) : Bool :=
  1 ≤ i.name.length && i.name.length ≤ 255

/-- Input shape of `updateDeckAction`: `{id, name?, description?}`. -/
structure UpdateDeckInput where
  id : Nat
  name : Option String
  description : Option String
deriving DecidableEq, Repr

/-- `updateDeckSchema`: positive integer id, optional bounded name, optional
description.  NOTE: the source schema has NO at-least-one-field refinement. -/
def updateDeckSchema (i : UpdateDeckInput) : Bool :=
  (0 < i.id) &&
  (match i.name with
   | none => true
   | some n => 1 ≤ n.length && n.length ≤ 255)

/-- Input shape of `updateCardAction`: `{id, front?, back?}`. -/
structure UpdateCardInput where
  id : Nat
  front : Option String
  back : Option String
deriving DecidableEq, Repr

/-- `updateCardSchema`: positive integer id, optional bounded front/back.
NOTE: the source schema has NO at-least-one-field refinement. -/
def updateCardSchema (i : UpdateCardInput) : Bool :=
  (0 < i.id) &&
  (match i.front with
   | none => true
   | some s => 1 ≤ s.length && s.length ≤ 2000) &&
  (match i.back with
   | none => true
   | some s => 1 ≤ s.length && s.length ≤ 2000)

/-- The deck actions' result envelope.  The source returns
`{success: true, deck}` or `{success: false, error}`; there is no
`fieldErrors` member anywhere in the deck/card action files. -/
inductive DeckActionResult where
  | ok (deck : Deck)
  | err (msg : String)
deriving DecidableEq, Repr

/-- Whether a deck-action envelope is the success variant. -/
def DeckActionResult.isOk : DeckActionResult → Bool
  | .ok _ => true
  | .err _ => false

/-- The card actions' result envelope. -/
inductive CardActionResult where
  | ok (card : Card)
  | err (msg : String)
deriving DecidableEq, Repr

/-- Whether a card-action envelope is the success variant. -/
def CardActionResult.isOk : CardActionResult → Bool
  | .ok _ => true
  | .err _ => false

/-- `createDeckAction`: resolve identity (an unresolved identity throws
`'Unauthorized'`, caught by the generic catch → `'Failed to create deck'`);
parse with `createDeckSchema` (a ZodError is caught →
`{success: false, error: 'Invalid input data'}` — no field errors);
on success call `deckService.createDeck`. -/
def createDeckAction (userId : Option String) (input : CreateDeckInput)
    (now : Nat) (db : DB) : DeckActionResult × DB :=
  match userId with
  | none => (.err "Failed to create deck", db)
  | some u =>
      if createDeckSchema input then
        let (deck, db') :=
          DeckService.createDeck u input.name input.description now db
        (.ok deck, db')
      else (.err "Invalid input data", db)

/-- `updateDeckAction`: identity, schema parse, then
`deckService.updateDeck`; a null result becomes
`'Deck not found or access denied'`. -/
def updateDeckAction (userId : Option String) (input : UpdateDeckInput)
    (now : Nat) (db : DB) : DeckActionResult × DB :=
  match userId with
  | none => (.err "Failed to update deck", db)
  | some u =>
      if updateDeckSchema input then
        match DeckService.updateDeck u input.id
            ⟨input.name, input.description⟩ now db with
        | (none, db') => (.err "Deck not found or access denied", db')
        | (some d, db') => (.ok d, db')
      else (.err "Invalid input data", db)

/-- `updateCardAction`: identity, schema parse, then
`cardService.updateCard`; the service's thrown
`'Card not found or access denied'` lands in the generic catch, which
returns `'Failed to update card'`. -/
def updateCardAction (userId : Option String) (input : UpdateCardInput)
    (now : Nat) (db : DB) : CardActionResult × DB :=
  match userId with
  | none => (.err "Failed to update card", db)
  | some u =>
      if updateCardSchema input then
        match CardService.updateCard u input.id ⟨input.front, input.back⟩ now db with
        | .error _ => (.err "Failed to update card", db)
        | .ok (none, db') => (.err "Card not found or access denied", db')
        | .ok (some c, db') => (.ok c, db')
      else (.err "Invalid input data", db)

/-! ### Study-session state machine (`study-interface.tsx`) -/

/-- The component's `useState` pieces: `currentCardIndex`, `isFlipped`,
`studiedCards` (a JS `Set`, modelled as an insertion-ordered duplicate-free
list of card ids) and `isStudyComplete`. -/
structure StudyState where
  currentCardIndex : Nat
  isFlipped : Bool
  studiedCards : List Nat
  isStudyComplete : Bool
deriving DecidableEq, Repr

/-- The initial render: `useState(0)`, `useState(false)`,
`useState(new Set())`, `useState(false)`. -/
def initialStudy : StudyState :=
  { currentCardIndex := 0, isFlipped := false, studiedCards := [],
    isStudyComplete := false }

/-- `new Set(prev).add(x)`: appends `x` unless already present. -/
def addStudied (l : List Nat) (x : Nat) : List Nat :=
  if l.contains x then l else l ++ [x]

/-- `handleFlipCard`: `setIsFlipped(!isFlipped)`. -/
def handleFlipCard (s : StudyState) : StudyState :=
  { s with isFlipped := !s.isFlipped }

/-- `handleNextCard`: if not at the last index, advance and unflip, recording
`currentCard.id` (the card at the pre-advance index) as studied; at the last
index, record it and set `isStudyComplete`. -/
def handleNextCard (cards : List Card) (s : StudyState) : StudyState :=
  let currentId : Option Nat := (cards.get? s.currentCardIndex).map Card.id
  let studied := match currentId with
    | some i => addStudied s.studiedCards i
    | none => s.studiedCards
  if s.currentCardIndex < cards.length - 1 then
    { s with currentCardIndex := s.currentCardIndex + 1, isFlipped := false,
             studiedCards := studied }
  else
    { s with studiedCards := studied, isStudyComplete := true }

/-- `handlePreviousCard`: guarded by `currentCardIndex > 0`. -/
def handlePreviousCard (s : StudyState) : StudyState :=
  if 0 < s.currentCardIndex then
    { s with currentCardIndex := s.currentCardIndex - 1, isFlipped := false }
  else s

/-- `handleRestartStudy`: reset every piece of state. -/
def handleRestartStudy : StudyState := initialStudy

/-- The user-triggerable transitions of the study view. -/
inductive StudyEvent where
  | flip
  | advance
  | retreat
  | restart
deriving DecidableEq, Repr

/-- One observable transition of the rendered component.  On the completion
screen only "Study Again" (restart) is rendered, so the other events are
no-ops there.  `advance` is the Next button, which carries
`disabled={!isFlipped}`: a click cannot fire while the card is unrevealed,
so the unrevealed case is the identity. -/
def studyStep (cards : List Card) (e : StudyEvent) (s : StudyState) : StudyState :=
  match e with
  | .flip => if s.isStudyComplete then s else handleFlipCard s
  | .advance =>
      if s.isStudyComplete then s
      else if s.isFlipped then handleNextCard cards s else s
  | .retreat => if s.isStudyComplete then s else handlePreviousCard s
  | .restart => handleRestartStudy

/-- Run a sequence of study events from the initial render. -/
def studyRun (cards : List Card) (events : List StudyEvent) : StudyState :=
  events.foldl (fun s e => studyStep cards e s) initialStudy

/-- States of the study component reachable from the initial render. -/
inductive StudyReachable (cards : List Card) : StudyState → Prop where
  | init : StudyReachable cards initialStudy
  | step : ∀ (e : StudyEvent) (s : StudyState), StudyReachable cards s →
      StudyReachable cards (studyStep cards e s)

/-! ### Helper lemmas -/

theorem filter_eq_nil_of_false {α : Type} {p : α → Bool} :
    ∀ {l : List α}, (∀ a ∈ l, p a = false) → l.filter p = [] := by
  intro l h
  induction l with
  | nil => rfl
  | cons x xs ih =>
      rw [List.filter_cons, h x (List.mem_cons_self x xs)]
      exact ih fun a ha => h a (List.mem_cons_of_mem x ha)

theorem filter_eq_self_of_true {α : Type} {p : α → Bool} :
    ∀ {l : List α}, (∀ a ∈ l, p a = true) → l.filter p = l := by
  intro l h
  induction l with
  | nil => rfl
  | cons x xs ih =>
      simp [List.filter_cons, h x (List.mem_cons_self x xs),
        ih fun a ha => h a (List.mem_cons_of_mem x ha)]

theorem map_if_eq_self {α : Type} {p : α → Bool} {f : α → α} :
    ∀ {l : List α}, (∀ a ∈ l, p a = false) →
      (l.map fun a => if p a then f a else a) = l := by
  intro l h
  induction l with
  | nil => rfl
  | cons x xs ih =>
      simp only [List.map_cons, h x (List.mem_cons_self x xs), if_neg, Bool.false_eq_true,
        not_false_iff]
      rw [ih fun a ha => h a (List.mem_cons_of_mem x ha)]

theorem head?_filter_some {α : Type} {p : α → Bool} :
    ∀ {l : List α} {x : α}, (l.filter p).head? = some x → x ∈ l ∧ p x = true := by
  intro l
  induction l with
  | nil => intro x h; exact absurd h (by simp)
  | cons y ys ih =>
      intro x h
      rw [List.filter_cons] at h
      by_cases hp : p y = true
      · rw [if_pos hp] at h
        simp only [List.head?, Option.some.injEq] at h
        subst h
        exact ⟨List.mem_cons_self y ys, hp⟩
      · rw [if_neg hp] at h
        have hr := ih h
        exact ⟨List.mem_cons_of_mem y hr.1, hr.2⟩

theorem head?_isSome_filter {α : Type} {p : α → Bool} {l : List α}
    (h : ∃ a ∈ l, p a = true) : ((l.filter p).head?).isSome = true := by
  rcases h with ⟨a, ha, hpa⟩
  cases hf : l.filter p with
  | nil =>
      have : a ∈ l.filter p := List.mem_filter.mpr ⟨ha, hpa⟩
      rw [hf] at this
      exact absurd this (List.not_mem_nil a)
  | cons b t => rfl

theorem head?_isSome_map_filter {α β : Type} {f : α → β} {p : α → Bool}
    {l : List α} :
    (((l.filter p).map f).head?).isSome = true ↔ ∃ a ∈ l, p a = true := by
  induction l with
  | nil => simp
  | cons x xs ih =>
      by_cases h : p x
      · simp [List.filter_cons, h]
      · simp only [List.filter_cons, h, if_neg, Bool.false_eq_true, not_false_iff, ih]
        constructor
        · rintro ⟨a, ha, hpa⟩; exact ⟨a, List.mem_cons_of_mem x ha, hpa⟩
        · rintro ⟨a, ha, hpa⟩
          rcases List.mem_cons.mp ha with rfl | ha2
          · exact absurd hpa (by simp [h])
          · exact ⟨a, ha2, hpa⟩

theorem deck_unique {db : DB} (hwf : WF db) {a b : Deck}
    (ha : a ∈ db.decks) (hb : b ∈ db.decks) (h : a.id = b.id) : a = b :=
  List.inj_on_of_nodup_map hwf.1 ha hb h

theorem card_unique {db : DB} (hwf : WF db) {a b : Card}
    (ha : a ∈ db.cards) (hb : b ∈ db.cards) (h : a.id = b.id) : a = b :=
  List.inj_on_of_nodup_map hwf.2 ha hb h

theorem mem_joinCardsDecks {db : DB} {cd : Card × Deck} :
    cd ∈ joinCardsDecks db ↔
      cd.1 ∈ db.cards ∧ cd.2 ∈ db.decks ∧ cd.1.deckId = cd.2.id := by
  cases cd with
  | mk c d =>
      simp only [joinCardsDecks, List.mem_flatMap, List.mem_map, List.mem_filter,
        Prod.mk.injEq]
      constructor
      · rintro ⟨c2, hc2, d2, ⟨hd2, hjoin⟩, rfl, rfl⟩
        exact ⟨hc2, hd2, by simpa using hjoin⟩
      · rintro ⟨hc, hd, hjoin⟩
        exact ⟨c, hc, d, ⟨hd, by simpa using hjoin⟩, rfl, rfl⟩

/-- When the deck with a given id belongs to someone other than the caller,
no deck row matches the ownership-scoped predicate. -/
theorem deck_pred_false_of_other_owner {db : DB} (hwf : WF db) {deck : Deck}
    (hmem : deck ∈ db.decks) {u : String} (hne : deck.userId ≠ u) :
    ∀ d ∈ db.decks, (d.id == deck.id && d.userId == u) = false := by
  intro d hd
  by_cases hid : d.id = deck.id
  · have hde : d = deck := deck_unique hwf hd hmem hid
    subst hde
    simp [hne]
  · simp [hid]

/-- When no deck row has the given id, no row matches the scoped predicate. -/
theorem deck_pred_false_of_absent {db : DB} {deckId : Nat}
    (habs : ∀ d ∈ db.decks, d.id ≠ deckId) (u : String) :
    ∀ d ∈ db.decks, (d.id == deckId && d.userId == u) = false := by
  intro d hd
  simp [habs d hd]

/-- A deck read scoped to a caller that no row matches returns null. -/
theorem getUserDeck_none {db : DB} {u : String} {deckId : Nat}
    (h : ∀ d ∈ db.decks, (d.id == deckId && d.userId == u) = false) :
    DeckService.getUserDeck u deckId db = none := by
  simp only [DeckService.getUserDeck]
  rw [filter_eq_nil_of_false h]
  rfl

/-- A deck update whose ownership-scoped predicate matches no row returns
null and leaves the store untouched. -/
theorem updateDeck_no_match {db : DB} {u : String} {deckId : Nat}
    (h : ∀ d ∈ db.decks, (d.id == deckId && d.userId == u) = false)
    (data : DeckUpdate) (now : Nat) :
    DeckService.updateDeck u deckId data now db = (none, db) := by
  simp only [DeckService.updateDeck]
  rw [filter_eq_nil_of_false h, map_if_eq_self h]
  rfl

/-- A deck deletion whose ownership-scoped predicate matches no row returns
null and leaves the store untouched. -/
theorem deleteDeck_no_match {db : DB} {u : String} {deckId : Nat}
    (h : ∀ d ∈ db.decks, (d.id == deckId && d.userId == u) = false) :
    DeckService.deleteDeck u deckId db = (none, db) := by
  have h2 : List.filter (fun d => !(d.id == deckId && d.userId == u)) db.decks
      = db.decks :=
    filter_eq_self_of_true fun d hd => by rw [h d hd]; rfl
  have h3 : List.filter
      (fun c => !(List.any ([] : List Deck) fun d => c.deckId == d.id)) db.cards
      = db.cards :=
    filter_eq_self_of_true fun c _ => rfl
  simp only [DeckService.deleteDeck]
  rw [filter_eq_nil_of_false h, h2, h3]
  rfl

/-- A card lookup returns null when every join row either has another card
id or a deck owner different from the caller. -/
theorem getCard_none {db : DB} {u : String} {cardId : Nat}
    (h : ∀ cd ∈ joinCardsDecks db, cd.1.id = cardId → cd.2.userId ≠ u) :
    CardService.getCard u cardId db = none := by
  simp only [CardService.getCard]
  rw [filter_eq_nil_of_false]
  · rfl
  · intro cd hcd
    by_cases hid : cd.1.id = cardId
    · simp [hid, h cd hcd hid]
    · simp [hid]

/-- A card update throws `'Card not found or access denied'` when every join
row with the card's id belongs to a deck the caller does not own. -/
theorem updateCard_denied {db : DB} {u : String} {cardId : Nat}
    (h : ∀ cd ∈ joinCardsDecks db, cd.1.id = cardId → cd.2.userId ≠ u)
    (data : CardUpdate) (now : Nat) :
    CardService.updateCard u cardId data now db
      = .error "Card not found or access denied" := by
  simp only [CardService.updateCard]
  split
  · rfl
  · next cd hh =>
      have hr := head?_filter_some hh
      have hid : cd.1.id = cardId := by simpa using hr.2
      have hne := h cd hr.1 hid
      rw [if_neg (by simpa using hne)]

/-- A card deletion throws `'Card not found or access denied'` under the
same condition. -/
theorem deleteCard_denied {db : DB} {u : String} {cardId : Nat}
    (h : ∀ cd ∈ joinCardsDecks db, cd.1.id = cardId → cd.2.userId ≠ u) :
    CardService.deleteCard u cardId db
      = .error "Card not found or access denied" := by
  simp only [CardService.deleteCard]
  split
  · rfl
  · next cd hh =>
      have hr := head?_filter_some hh
      have hid : cd.1.id = cardId := by simpa using hr.2
      have hne := h cd hr.1 hid
      rw [if_neg (by simpa using hne)]

/-- Join rows for a card of another user's deck never carry the caller as
owner (uses primary-key uniqueness of both tables). -/
theorem join_rows_other_owner {db : DB} (hwf : WF db) {deck : Deck}
    (hdeck : deck ∈ db.decks) {u : String} (hne : deck.userId ≠ u)
    {card : Card} (hcard : card ∈ db.cards) (hdid : card.deckId = deck.id) :
    ∀ cd ∈ joinCardsDecks db, cd.1.id = card.id → cd.2.userId ≠ u := by
  intro cd hcd hid
  rcases mem_joinCardsDecks.mp hcd with ⟨hc1, hd2, hjoin⟩
  have hc : cd.1 = card := card_unique hwf hc1 hcard hid
  have hd : cd.2 = deck := by
    apply deck_unique hwf hd2 hdeck
    rw [← hjoin, hc, hdid]
  rw [hd]
  exact hne

/-- Join rows never match an id that no card row has. -/
theorem join_rows_absent_card {db : DB} {cardId : Nat}
    (habs : ∀ c ∈ db.cards, c.id ≠ cardId) (u : String) :
    ∀ cd ∈ joinCardsDecks db, cd.1.id = cardId → cd.2.userId ≠ u := by
  intro cd hcd hid
  rcases mem_joinCardsDecks.mp hcd with ⟨hc1, _, _⟩
  exact absurd hid (habs cd.1 hc1)

/-! ### Concrete fixtures used by witnesses and counterexamples -/

/-- A deck owned by user `u1`. -/
def deckW : Deck :=
  { id := 1, userId := "u1", name := "Spanish", description := none,
    createdAt := 0, updatedAt := 0 }

/-- A card in `deckW`. -/
def cardW : Card :=
  { id := 1, deckId := 1, front := "hola", back := "hello",
    createdAt := 0, updatedAt := 0 }

/-- A store holding `deckW` and `cardW`. -/
def dbW : DB := { decks := [deckW], cards := [cardW], nextDeckId := 2, nextCardId := 2 }

/-! ### Claims -/

/-- C1: for distinct users U1 ≠ U2 and every deck or card owned by U1,
each repository operation (getUserDeck, getCard, updateDeck, deleteDeck,
updateCard, deleteCard) invoked with U2's identity and the record's id
returns an absent/denied outcome — never the record — and that outcome is
the very outcome produced when the record does not exist at all (second and
third conjuncts), so U2 cannot distinguish "wrong owner" from
"nonexistent". -/
theorem C1_ownership_isolation (db : DB) (u2 : String) (hwf : WF db) :
    (∀ deck ∈ db.decks, deck.userId ≠ u2 →
      (DeckService.getUserDeck u2 deck.id db = none
       ∧ (∀ data now, DeckService.updateDeck u2 deck.id data now db = (none, db))
       ∧ DeckService.deleteDeck u2 deck.id db = (none, db)
       ∧ (∀ card ∈ db.cards, card.deckId = deck.id →
           (CardService.getCard u2 card.id db = none
            ∧ (∀ data now, CardService.updateCard u2 card.id data now db
                = Except.error "Card not found or access denied")
            ∧ CardService.deleteCard u2 card.id db
                = Except.error "Card not found or access denied"))))
    ∧ (∀ deckId, (∀ d ∈ db.decks, d.id ≠ deckId) →
        (DeckService.getUserDeck u2 deckId db = none
         ∧ (∀ data now, DeckService.updateDeck u2 deckId data now db = (none, db))
         ∧ DeckService.deleteDeck u2 deckId db = (none, db)))
    ∧ (∀ cardId, (∀ c ∈ db.cards, c.id ≠ cardId) →
        (CardService.getCard u2 cardId db = none
         ∧ (∀ data now, CardService.updateCard u2 cardId data now db
             = Except.error "Card not found or access denied")
         ∧ CardService.deleteCard u2 cardId db
             = Except.error "Card not found or access denied")) := by
  refine ⟨?_, ?_, ?_⟩
  · intro deck hmem hne
    have hp := deck_pred_false_of_other_owner hwf hmem hne
    refine ⟨getUserDeck_none hp, fun data now => updateDeck_no_match hp data now,
      deleteDeck_no_match hp, ?_⟩
    intro card hcard hdid
    have hj := join_rows_other_owner hwf hmem hne hcard hdid
    exact ⟨getCard_none hj, fun data now => updateCard_denied hj data now,
      deleteCard_denied hj⟩
  · intro deckId habs
    have hp := deck_pred_false_of_absent habs u2
    exact ⟨getUserDeck_none hp, fun data now => updateDeck_no_match hp data now,
      deleteDeck_no_match hp⟩
  · intro cardId habs
    have hj := join_rows_absent_card habs u2
    exact ⟨getCard_none hj, fun data now => updateCard_denied hj data now,
      deleteCard_denied hj⟩

/-- C1 at a concrete store: user u2 reading user u1's deck gets null. -/
theorem C1_ownership_isolation_witness :
    WF dbW ∧ deckW ∈ dbW.decks ∧ deckW.userId ≠ "u2"
      ∧ DeckService.getUserDeck "u2" deckW.id dbW = none :=
  ⟨by decide, by decide, by decide,
    ((C1_ownership_isolation dbW "u2" (by decide)).1 deckW (by decide)
      (by decide)).1⟩

/-- C2 counterexample: the claim says repository reads never raise an error,
but `DeckService.getDeckCards` invoked by a non-owner (or on a nonexistent
deck) throws `'Deck not found or access denied'`. -/
theorem C2_read_throws_counterexample :
    DeckService.getDeckCards "u2" 1 dbW
      = Except.error "Deck not found or access denied" := by
  rfl

/-- C2 amended: reads whose target is absent or foreign return empty/absent
without an error — for `getUserDeck`, `CardService.getDeckCards`, `getCard`
and `getUserDecks`; `DeckService.getDeckCards` alone deviates, throwing
`'Deck not found or access denied'` instead. -/
theorem C2_reads_absent_amended (db : DB) (u : String) :
    (∀ deckId, (∀ d ∈ db.decks, (d.id == deckId && d.userId == u) = false) →
      (DeckService.getUserDeck u deckId db = none
       ∧ CardService.getDeckCards u deckId db = []
       ∧ DeckService.getDeckCards u deckId db
           = Except.error "Deck not found or access denied"))
    ∧ (∀ cardId, (∀ cd ∈ joinCardsDecks db, cd.1.id = cardId → cd.2.userId ≠ u) →
        CardService.getCard u cardId db = none)
    ∧ ((∀ d ∈ db.decks, d.userId ≠ u) → DeckService.getUserDecks u db = []) := by
  refine ⟨?_, ?_, ?_⟩
  · intro deckId hp
    refine ⟨getUserDeck_none hp, ?_, ?_⟩
    · simp only [CardService.getDeckCards]
      rw [filter_eq_nil_of_false hp]
      rfl
    · simp only [DeckService.getDeckCards, getUserDeck_none hp]
  · intro cardId hj
    exact getCard_none hj
  · intro h
    simp only [DeckService.getUserDecks]
    rw [filter_eq_nil_of_false (fun d hd => by simp [h d hd])]
    rfl

/-- C2 amended, at a concrete store: u2 listing u1's deck's cards through
`CardService.getDeckCards` gets the empty list, not an error. -/
theorem C2_reads_absent_amended_witness :
    (∀ d ∈ dbW.decks, (d.id == (1 : Nat) && d.userId == "u2") = false)
      ∧ CardService.getDeckCards "u2" 1 dbW = [] :=
  ⟨by decide, ((C2_reads_absent_amended dbW "u2").1 1 (by decide)).2.1⟩

/-- Mapping a key that an update function preserves commutes with a guarded
in-place update. -/
theorem map_key_map_if {α β : Type} (key : α → β) (p : α → Bool) (f : α → α)
    (hf : ∀ a, key (f a) = key a) :
    ∀ l : List α, ((l.map fun a => if p a then f a else a).map key) = l.map key := by
  intro l
  induction l with
  | nil => rfl
  | cons x xs ih =>
      simp only [List.map_cons, ih]
      by_cases h : p x
      · rw [if_pos h, hf]
      · rw [if_neg h]

/-- The returned row of `updateDeck` is non-null exactly when some deck row
matches both the id and the caller — the write's own matching condition. -/
theorem updateDeck_succeeds_iff (u : String) (deckId : Nat) (data : DeckUpdate)
    (now : Nat) (db : DB) :
    ((DeckService.updateDeck u deckId data now db).1).isSome = true ↔
      ∃ d ∈ db.decks, (d.id == deckId && d.userId == u) = true := by
  simp only [DeckService.updateDeck]
  exact head?_isSome_map_filter

/-- `updateDeck` rewrites only name/description/updatedAt: the (id, owner)
pairs of the deck table are unchanged by any update. -/
theorem updateDeck_preserves_keys (u : String) (deckId : Nat) (data : DeckUpdate)
    (now : Nat) (db : DB) :
    (((DeckService.updateDeck u deckId data now db).2).decks.map
        (fun d => (d.id, d.userId)))
      = db.decks.map (fun d => (d.id, d.userId)) := by
  simp only [DeckService.updateDeck]
  have hf : ∀ a : Deck,
      ((applyDeckUpdate a data now).id, (applyDeckUpdate a data now).userId)
        = (a.id, a.userId) := fun a => rfl
  exact map_key_map_if (fun d => (d.id, d.userId))
    (fun d => d.id == deckId && d.userId == u)
    (fun d => applyDeckUpdate d data now) hf db.decks

/-- C3: `updateDeck`'s ownership check is part of the write's matching
condition (see the single guarded rewrite in its definition), so a
non-owner's update returns null and leaves the store untouched, and of two
sequential updates to one deck id under distinct caller identities at most
one can succeed. -/
theorem C3_updateDeck_atomic (db : DB) (hwf : WF db) :
    (∀ u deck, deck ∈ db.decks → deck.userId ≠ u →
      ∀ data now, DeckService.updateDeck u deck.id data now db = (none, db))
    ∧ (∀ c1 c2 deckId data1 data2 n1 n2, c1 ≠ c2 →
        ¬(((DeckService.updateDeck c1 deckId data1 n1 db).1).isSome = true
          ∧ (((DeckService.updateDeck c2 deckId data2 n2
                ((DeckService.updateDeck c1 deckId data1 n1 db).2)).1).isSome
              = true))) := by
  constructor
  · intro u deck hmem hne data now
    exact updateDeck_no_match (deck_pred_false_of_other_owner hwf hmem hne) data now
  · rintro c1 c2 deckId data1 data2 n1 n2 hne ⟨h1, h2⟩
    rw [updateDeck_succeeds_iff] at h1 h2
    rcases h1 with ⟨d1, hd1, hp1⟩
    rcases h2 with ⟨d2, hd2, hp2⟩
    have hp1b : d1.id = deckId ∧ d1.userId = c1 := by
      simpa [Bool.and_eq_true] using hp1
    have hp2b : d2.id = deckId ∧ d2.userId = c2 := by
      simpa [Bool.and_eq_true] using hp2
    have hk := updateDeck_preserves_keys c1 deckId data1 n1 db
    have hmem2 : ((d2.id, d2.userId) : Nat × String) ∈
        (((DeckService.updateDeck c1 deckId data1 n1 db).2).decks.map
          (fun d => (d.id, d.userId))) := List.mem_map_of_mem _ hd2
    rw [hk] at hmem2
    rcases List.mem_map.mp hmem2 with ⟨d0, hd0, hkey⟩
    have hkid : d0.id = d2.id := congrArg Prod.fst hkey
    have hkuid : d0.userId = d2.userId := congrArg Prod.snd hkey
    have hd01 : d0 = d1 := by
      apply deck_unique hwf hd0 hd1
      rw [hkid, hp2b.1, hp1b.1]
    apply hne
    calc c1 = d1.userId := hp1b.2.symm
      _ = d0.userId := by rw [hd01]
      _ = d2.userId := hkuid
      _ = c2 := hp2b.2

/-- C3 at a concrete store: a non-owner's update of u1's deck is the
identity on the store and returns null. -/
theorem C3_updateDeck_atomic_witness :
    WF dbW ∧ deckW ∈ dbW.decks ∧ deckW.userId ≠ "u2"
      ∧ DeckService.updateDeck "u2" deckW.id ⟨some "X", none⟩ 5 dbW
          = (none, dbW) :=
  ⟨by decide, by decide, by decide,
    (C3_updateDeck_atomic dbW (by decide)).1 "u2" deckW (by decide) (by decide)
      ⟨some "X", none⟩ 5⟩

/-- C4: contrary to the claim (and to the repository's server-action rules
document, which mandates an at-least-one-field `.refine` on both update
schemas), the shipped `updateDeckSchema` and `updateCardSchema` accept a
payload with every optional field absent, and both update handlers then
accept the no-op update as a success for an owned record. -/
theorem C4_noop_update_accepted :
    updateDeckSchema { id := 1, name := none, description := none } = true
    ∧ updateCardSchema { id := 1, front := none, back := none } = true
    ∧ ((updateDeckAction (some "u1") { id := 1, name := none, description := none }
          7 dbW).1).isOk = true
    ∧ ((updateCardAction (some "u1") { id := 1, front := none, back := none }
          7 dbW).1).isOk = true := by
  decide

/-- A name of the maximum accepted length (255 characters). -/
def name255 : String := String.mk (List.replicate 255 'a')

/-- A name one character over the bound (256 characters). -/
def name256 : String := String.mk (List.replicate 256 'a')

set_option maxRecDepth 20000 in
/-- C5: the boundary behaviour holds (empty name fails, 256 fails, 255
succeeds) and failures are structured envelopes, but contrary to the claim
(and to the repository's rules document, which mandates
`fieldErrors: error.flatten().fieldErrors`), the handler returns only the
generic envelope `{success: false, error: 'Invalid input data'}`, with no
per-field error on `name` — the envelope type has no field-error component
at all, mirroring the source's return sites. -/
theorem C5_create_deck_validation :
    (createDeckAction (some "u1") { name := "", description := none } 7 dbW).1
        = DeckActionResult.err "Invalid input data"
    ∧ (createDeckAction (some "u1") { name := name256, description := none } 7 dbW).1
        = DeckActionResult.err "Invalid input data"
    ∧ ((createDeckAction (some "u1") { name := name255, description := none }
          7 dbW).1).isOk = true := by
  decide

/-- A deck with two cards created at times 5 and 9, for order observation. -/
def deck6 : Deck :=
  { id := 1, userId := "u1", name := "D", description := none,
    createdAt := 0, updatedAt := 0 }

/-- The older card (createdAt 5). -/
def card6a : Card :=
  { id := 1, deckId := 1, front := "f1", back := "b1", createdAt := 5, updatedAt := 5 }

/-- The newer card (createdAt 9). -/
def card6b : Card :=
  { id := 2, deckId := 1, front := "f2", back := "b2", createdAt := 9, updatedAt := 9 }

/-- Store for the ordering observation. -/
def db6 : DB := { decks := [deck6], cards := [card6a, card6b], nextDeckId := 2,
                  nextCardId := 3 }

/-- C6: `CardService.getDeckCards` (the implementation the deck and study
pages call) re-verifies ownership, but returns the cards NEWEST-first
(`orderBy desc(createdAt)`), contradicting the claimed creation-order
ascending; `DeckService.getDeckCards` (unused by the pages) does return
ascending order, as does the repository's database-rules document. -/
theorem C6_cards_order_descending :
    CardService.getDeckCards "u1" 1 db6 = [card6b, card6a]
    ∧ CardService.getDeckCards "u2" 1 db6 = []
    ∧ DeckService.getDeckCards "u1" 1 db6 = Except.ok [card6a, card6b]
    ∧ card6a.createdAt < card6b.createdAt := by
  exact ⟨rfl, rfl, rfl, by decide⟩

/-- A boolean `any` that is false is false at every member. -/
theorem any_false_mem {α : Type} {p : α → Bool} :
    ∀ {l : List α}, l.any p = false → ∀ {a : α}, a ∈ l → p a = false := by
  intro l
  induction l with
  | nil => intro _ a ha; cases ha
  | cons x xs ih =>
      intro h a ha
      simp only [List.any_cons, Bool.or_eq_false_iff] at h
      rcases List.mem_cons.mp ha with rfl | h2
      · exact h.1
      · exact ih h.2 h2

/-- C7: deleting an owned deck succeeds, and — via the storage-level
cascade, modelled from the spec because the schema module is not among the
sources — no card with that `deckId` remains in the store, so a subsequent
`getDeckCards` for it is empty. -/
theorem C7_cascade_delete (db : DB) (u : String) (deck : Deck)
    (hmem : deck ∈ db.decks) (hown : deck.userId = u) :
    (((DeckService.deleteDeck u deck.id db).1).isSome = true)
    ∧ (∀ c ∈ ((DeckService.deleteDeck u deck.id db).2).cards, c.deckId ≠ deck.id)
    ∧ CardService.getDeckCards u deck.id ((DeckService.deleteDeck u deck.id db).2)
        = [] := by
  have hpd : (deck.id == deck.id && deck.userId == u) = true := by simp [hown]
  refine ⟨?_, ?_, ?_⟩
  · simp only [DeckService.deleteDeck]
    exact head?_isSome_filter ⟨deck, hmem, hpd⟩
  · intro c hc
    simp only [DeckService.deleteDeck] at hc
    have hc2 := List.mem_filter.mp hc
    have hany : ((db.decks.filter
        (fun d => d.id == deck.id && d.userId == u)).any
          (fun d => c.deckId == d.id)) = false := by
      simpa using hc2.2
    have hdeckmem : deck ∈ db.decks.filter
        (fun d => d.id == deck.id && d.userId == u) :=
      List.mem_filter.mpr ⟨hmem, hpd⟩
    have := any_false_mem hany hdeckmem
    simpa using this
  · simp only [DeckService.deleteDeck, CardService.getDeckCards]
    rw [filter_eq_nil_of_false ?_]
    · rfl
    · intro d hd
      have hd2 := List.mem_filter.mp hd
      have hb := hd2.2
      cases hval : (d.id == deck.id && d.userId == u) with
      | false => rfl
      | true => rw [hval] at hb; simp at hb

/-- C7 at a concrete store: deleting u1's deck removes its card. -/
theorem C7_cascade_delete_witness :
    deckW ∈ dbW.decks ∧ deckW.userId = "u1"
      ∧ (((DeckService.deleteDeck "u1" deckW.id dbW).1).isSome = true) :=
  ⟨by decide, by decide,
    (C7_cascade_delete dbW "u1" deckW (by decide) (by decide)).1⟩

/-- C8: the advance transition is the Next button, rendered with
`disabled={!isFlipped}` — while the answer is unrevealed a click cannot
fire, so advancing in an unrevealed active state leaves the whole state
(position included) unchanged. -/
theorem C8_advance_blocked_unrevealed (cards : List Card) (s : StudyState)
    (hactive : s.isStudyComplete = false) (hunrev : s.isFlipped = false) :
    studyStep cards StudyEvent.advance s = s := by
  simp [studyStep, hactive, hunrev]

/-- C8 at the initial state of a one-card session. -/
theorem C8_advance_blocked_unrevealed_witness :
    initialStudy.isStudyComplete = false ∧ initialStudy.isFlipped = false
      ∧ studyStep [cardW] StudyEvent.advance initialStudy = initialStudy :=
  ⟨rfl, rfl, C8_advance_blocked_unrevealed [cardW] initialStudy rfl rfl⟩

/-- Study card A of the 3-card session. -/
def cardS1 : Card :=
  { id := 10, deckId := 1, front := "A", back := "a", createdAt := 1, updatedAt := 1 }

/-- Study card B. -/
def cardS2 : Card :=
  { id := 20, deckId := 1, front := "B", back := "b", createdAt := 2, updatedAt := 2 }

/-- Study card C. -/
def cardS3 : Card :=
  { id := 30, deckId := 1, front := "C", back := "c", createdAt := 3, updatedAt := 3 }

/-- The [A, B, C] card list. -/
def cards9 : List Card := [cardS1, cardS2, cardS3]

/-- flip, advance, flip, advance, flip, advance. -/
def seq6 : List StudyEvent :=
  [StudyEvent.flip, StudyEvent.advance, StudyEvent.flip, StudyEvent.advance,
   StudyEvent.flip, StudyEvent.advance]

/-- C9: over [A, B, C], the sequence flip, advance, flip, advance, flip,
advance visits positions 0, 1, 2 in order and ends Complete with the
visited set {A, B, C} (each advance, the final one included, records the
current card's id). -/
theorem C9_study_completion :
    (studyRun cards9 []).currentCardIndex = 0
    ∧ (studyRun cards9 [StudyEvent.flip, StudyEvent.advance]).currentCardIndex = 1
    ∧ (studyRun cards9 [StudyEvent.flip, StudyEvent.advance]).isStudyComplete
        = false
    ∧ (studyRun cards9 [StudyEvent.flip, StudyEvent.advance, StudyEvent.flip,
        StudyEvent.advance]).currentCardIndex = 2
    ∧ (studyRun cards9 [StudyEvent.flip, StudyEvent.advance, StudyEvent.flip,
        StudyEvent.advance]).isStudyComplete = false
    ∧ (studyRun cards9 seq6).isStudyComplete = true
    ∧ (studyRun cards9 seq6).studiedCards = [10, 20, 30] := by
  decide

/-- One study transition keeps the position inside the card list. -/
theorem studyStep_index_lt (cards : List Card) (hlen : 0 < cards.length)
    (e : StudyEvent) (u : StudyState)
    (hu : u.currentCardIndex < cards.length) :
    (studyStep cards e u).currentCardIndex < cards.length := by
  cases e with
  | flip =>
      simp only [studyStep]
      split
      · exact hu
      · simpa [handleFlipCard] using hu
  | advance =>
      simp only [studyStep]
      split
      · exact hu
      · split
        · simp only [handleNextCard]
          split
          · next h => simp only []; omega
          · simpa using hu
        · exact hu
  | retreat =>
      simp only [studyStep]
      split
      · exact hu
      · simp only [handlePreviousCard]
        split
        · next h => simp only []; omega
        · exact hu
  | restart =>
      simpa [studyStep, handleRestartStudy, initialStudy] using hlen

/-- C10 (implicit): for a non-empty card list, every state reachable from
the initial render by flip/advance/retreat/restart keeps
0 ≤ currentCardIndex ≤ length − 1, so the `cards[currentCardIndex]` lookup
is always defined. -/
theorem C10_position_in_bounds (cards : List Card) (s : StudyState)
    (hne : cards ≠ []) (hreach : StudyReachable cards s) :
    s.currentCardIndex ≤ cards.length - 1
      ∧ (cards.get? s.currentCardIndex).isSome = true := by
  have hlen : 0 < cards.length := List.length_pos.mpr hne
  have key : s.currentCardIndex < cards.length := by
    induction hreach with
    | init => simpa [initialStudy] using hlen
    | step e u hu ih => exact studyStep_index_lt cards hlen e u ih
  refine ⟨by omega, ?_⟩
  cases hg : cards.get? s.currentCardIndex with
  | some a => rfl
  | none =>
      rw [List.get?_eq_none] at hg
      omega

/-- C10 at the initial state of a one-card session. -/
theorem C10_position_in_bounds_witness :
    ([cardW] : List Card) ≠ []
      ∧ (initialStudy.currentCardIndex ≤ ([cardW] : List Card).length - 1
         ∧ (([cardW] : List Card).get? initialStudy.currentCardIndex).isSome
             = true) :=
  ⟨by decide, C10_position_in_bounds [cardW] initialStudy (by decide)
    StudyReachable.init⟩
